import Mathlib

/-!
Verification of the Echo chat bot (src/bot.py): a shallow embedding of the
command dispatch loop (`on_message`), the command handlers, and the Chronicle
store (the sqlite `logs` table accessed by `handle_log_command` and
`handle_recall_command`), together with theorems settling the specification
claims about classification, recall ordering, id assignment, and error paths.

Text is modelled as `List Char` (Python `str`); the `logs` table as a list of
rows in storage (rowid) order; the `ORDER BY id DESC` read as an explicit sort
by descending id; I/O failure of a sqlite call as a boolean outcome, an
exception surfacing as the handler's error response with the transaction
rolled back.
-/

namespace Echo

/-- One inbound chat message, restricted to the fields the bot reads:
`message.author` (compared with `client.user` and stored via `str(...)`) and
`message.content`. -/
structure Event where
  author : String
  text : List Char
deriving Repr, DecidableEq

/-- A row of the `logs` table created by `initialize_database`:
`id INTEGER PRIMARY KEY AUTOINCREMENT, timestamp TEXT, user TEXT, message TEXT`. -/
structure LogEntry where
  id : Nat
  timestamp : String
  user : String
  message : String
deriving Repr, DecidableEq

/-- The Chronicle: the rows of the `logs` table in storage (rowid) order. -/
abbrev Chronicle := List LogEntry

/-- The data of one row apart from its id: (timestamp, user, message), the
column order of the `INSERT` in `handle_log_command`. -/
abbrev EntryData := String × String × String

/-- Whitespace in the sense of Python `str.split()` / `str.strip()`. -/
def isSpace (c : Char) : Bool :=
  c = ' ' || c = '\t' || c = '\n' || c = '\r' || c = '\x0b' || c = '\x0c'

/-- Python `text.startswith(p)`: `p` is an initial segment of the text. -/
def hasPre : List Char → List Char → Bool
  | [], _ => true
  | _ :: _, [] => false
  | p :: ps, c :: cs => p == c && hasPre ps cs

/-- Helper for `tokens`: accumulates the current word (reversed) while
scanning. -/
def tokensAux : List Char → List Char → List (List Char)
  | [], acc => if acc.isEmpty then [] else [acc.reverse]
  | c :: cs, acc =>
    if isSpace c then
      if acc.isEmpty then tokensAux cs [] else acc.reverse :: tokensAux cs []
    else tokensAux cs (c :: acc)

/-- Python `str.split()` with no argument: the maximal runs of non-whitespace
characters, in order, with no empty tokens. -/
def tokens (cs : List Char) : List (List Char) := tokensAux cs []

/-- Python `str.strip()`: the text without leading and trailing whitespace. -/
def stripChars (cs : List Char) : List Char :=
  ((cs.dropWhile isSpace).reverse.dropWhile isSpace).reverse

/-- The code point of the zero of every run of ten Unicode decimal digits
(category Nd, `Numeric_Type=Decimal`, Unicode 14.0 as shipped with the
CPython this bot runs on): each run is ten consecutive code points with
values 0–9; these are exactly the characters `int(...)` accepts. -/
def decimalZeros : List Nat :=
  [48, 1632, 1776, 1984, 2406, 2534, 2662, 2790, 2918, 3046, 3174, 3302,
   3430, 3558, 3664, 3792, 3872, 4160, 4240, 6112, 6160, 6470, 6608, 6784,
   6800, 6992, 7088, 7232, 7248, 42528, 43216, 43264, 43472, 43504, 43600,
   44016, 65296, 66720, 68912, 69734, 69872, 69942, 70096, 70384, 70736,
   70864, 71248, 71360, 71472, 71904, 72016, 72784, 73040, 73120, 92768,
   92864, 93008, 120782, 120792, 120802, 120812, 120822, 123200, 123632,
   125264, 130032]

/-- The decimal value of a character, Python `unicodedata.decimal(c, None)`:
`some v` exactly for the Unicode decimal digits. -/
def decDigit (c : Char) : Option Nat :=
  (decimalZeros.find? (fun z => z ≤ c.toNat && c.toNat < z + 10)).map
    (fun z => c.toNat - z)

/-- The code-point ranges (inclusive) of the characters that are
`isdigit()`-true without being decimal digits (`Numeric_Type=Digit`:
superscripts such as `'²'`, circled digits, and the like); `int(...)` raises
`ValueError` on all of them. -/
def digitOnlyRanges : List (Nat × Nat) :=
  [(178, 179), (185, 185), (4969, 4977), (6618, 6618), (8304, 8304),
   (8308, 8313), (8320, 8329), (9312, 9320), (9332, 9340), (9352, 9360),
   (9450, 9450), (9461, 9469), (9471, 9471), (10102, 10110), (10112, 10120),
   (10122, 10130), (68160, 68163), (69216, 69224), (69714, 69722),
   (127232, 127242)]

/-- Python `c.isdigit()` on one character: a decimal digit or a digit-type
character. -/
def pyIsDigit (c : Char) : Bool :=
  (decDigit c).isSome || digitOnlyRanges.any (fun r => r.1 ≤ c.toNat && c.toNat ≤ r.2)

/-- Python `t.isdigit()` on a token: nonempty and every character
`isdigit()`-true. -/
def isDigitsPy (t : List Char) : Bool := !t.isEmpty && t.all pyIsDigit

/-- Python `int(t)` on an `isdigit()`-true token: the base-10 value of its
decimal digit values when every character is a decimal digit, and `none`
(`ValueError`) when any character is a digit-type non-decimal such as `'²'`.
(Signs, underscores and whitespace, which `int` also allows, are never
`isdigit()`-true, so they cannot occur here.) -/
def intOfDecimal (t : List Char) : Option Nat :=
  if t.all (fun c => (decDigit c).isSome) then
    some (t.foldl (fun a c => a * 10 + ((decDigit c).getD 0)) 0)
  else none

/-- The id `AUTOINCREMENT` assigns to the next inserted row: one more than the
largest id ever used; the table is append-only, so that is one more than the
largest id present (0 for the empty table). -/
def nextId (db : Chronicle) : Nat := (db.map LogEntry.id).foldr max 0 + 1

/-- `INSERT INTO logs (timestamp, user, message) VALUES (?, ?, ?)` followed by
`commit`: one new row at the end of the table, with the next id. -/
def insertLog (db : Chronicle) (ts author msg : String) : Chronicle :=
  db ++ [⟨nextId db, ts, author, msg⟩]

/-- The `ORDER BY id DESC` comparison: row `a` may precede row `b` exactly when
`b.id ≤ a.id`. -/
def descById (a b : LogEntry) : Prop := b.id ≤ a.id

instance : DecidableRel descById := fun a b => Nat.decLe b.id a.id

/-- The rows of the table ordered by id descending (`ORDER BY id DESC`);
deterministic on real tables because ids are unique. -/
def sortDescById (rows : Chronicle) : Chronicle := List.insertionSort descById rows

/-- `SELECT timestamp, user, message FROM logs ORDER BY id DESC LIMIT n`:
the projected columns of the first `n` rows in descending-id order. -/
def selectDesc (rows : Chronicle) (limit : Nat) : List EntryData :=
  ((sortDescById rows).take limit).map (fun e => (e.timestamp, e.user, e.message))

/-- The spec operation `recentN`: at most `n` entries, the most recently
appended ones, most-recent-last — the `LIMIT n` descending read followed by the
`reversed(rows)` of `handle_recall_command`. -/
def recentN (rows : Chronicle) (n : Nat) : Chronicle :=
  ((sortDescById rows).take n).reverse

/-- The outbound responses a handler can send (`message.channel.send`),
keeping the payloads the claims are about and abstracting pure formatting. -/
inductive Response where
  | pong
  | scrapeUsage
  | scrapeStart (url : List Char)
  | scrapeReport (title : String)
  | scrapeFail (err : String)
  | timeUsage
  | timeStart (tz : List Char)
  | timeReport (info : String × String × String)
  | timeFail (err : String)
  | logUsage
  | logOk
  | logFail
  | chronicleEmpty
  | recallEmbed (rows : List EntryData)
  | recallFail
deriving Repr, DecidableEq

/-- The outcomes of the external collaborators and of the sqlite layer during
one event: the scrape result, the time-oracle result, `datetime.utcnow()`, and
whether the sqlite calls succeed (`false` = an exception is raised and the
transaction is rolled back). -/
structure Ext where
  scrapeResult : Except String String
  timeResult : Except String (String × String × String)
  nowTs : String
  dbOk : Bool

/-- The limit computation of `handle_recall_command`: default 5, replaced by
`int(parts[1])` when a second token exists and `isdigit()` holds, then capped
by `min(limit, 20)`; `none` when `int` raises `ValueError` (an
`isdigit()`-true token that is not all decimal digits), in which case the
handler never reaches the capping or the read. -/
def recallLimit? (text : List Char) : Option Nat :=
  match tokens text with
  | _ :: t :: _ =>
    if isDigitsPy t then (intOfDecimal t).map (fun v => min v 20)
    else some (min 5 20)
  | _ => some (min 5 20)

/-- `handle_recall_command`: parse the limit and read the most recent rows,
all inside one `try`; a `ValueError` from `int` or a sqlite failure sends the
recall error message; an empty result sends "The Chronicle is empty.";
otherwise one embed lists the rows oldest-first (`reversed(rows)`). -/
def handleRecall (db : Chronicle) (text : List Char) (dbOk : Bool) : List Response :=
  match recallLimit? text with
  | none => [Response.recallFail]
  | some limit =>
    if dbOk then
      let rows := selectDesc db limit
      if rows.isEmpty then [Response.chronicleEmpty]
      else [Response.recallEmbed rows.reverse]
    else [Response.recallFail]

/-- `handle_log_command`: content is `message.content[5:].strip()`; empty
content sends the usage error and touches no store; otherwise the insert either
commits (confirmation) or fails (error response, row absent). -/
def handleLog (db : Chronicle) (author : String) (text : List Char) (nowTs : String)
    (dbOk : Bool) : Chronicle × List Response :=
  let content := stripChars (text.drop 5)
  if content.isEmpty then (db, [Response.logUsage])
  else if dbOk then (insertLog db nowTs author (String.mk content), [Response.logOk])
  else (db, [Response.logFail])

/-- `handle_scrape_command`: no second token sends the usage error; otherwise a
progress message is sent, then the collaborator result (page title or error)
as a second message. -/
def handleScrape (text : List Char) (result : Except String String) : List Response :=
  match tokens text with
  | _ :: url :: _ =>
    Response.scrapeStart url ::
      (match result with
       | Except.ok t => [Response.scrapeReport t]
       | Except.error e => [Response.scrapeFail e])
  | _ => [Response.scrapeUsage]

/-- `handle_time_command`: no second token sends the usage error; otherwise a
progress message, then the oracle result or the error as a second message. -/
def handleTime (text : List Char) (result : Except String (String × String × String)) :
    List Response :=
  match tokens text with
  | _ :: tz :: _ =>
    Response.timeStart tz ::
      (match result with
       | Except.ok info => [Response.timeReport info]
       | Except.error e => [Response.timeFail e])
  | _ => [Response.timeUsage]

/-- `'!ping'` as characters. -/
def pingTok : List Char := ("!ping").data

/-- `'!scrape'` as characters. -/
def scrapeTok : List Char := ("!scrape").data

/-- `'!time'` as characters. -/
def timeTok : List Char := ("!time").data

/-- `'!log'` as characters. -/
def logTok : List Char := ("!log").data

/-- `'!recall'` as characters. -/
def recallTok : List Char := ("!recall").data

/-- `on_message`: drop events from the bot itself, then the `elif` chain of
`startswith` tests routes to exactly one handler; no prefix matches, no
response. Returns the Chronicle after the event and the responses sent. -/
def onMessage (selfUser : String) (ext : Ext) (db : Chronicle) (ev : Event) :
    Chronicle × List Response :=
  if ev.author = selfUser then (db, [])
  else if hasPre pingTok ev.text then (db, [Response.pong])
  else if hasPre scrapeTok ev.text then (db, handleScrape ev.text ext.scrapeResult)
  else if hasPre timeTok ev.text then (db, handleTime ev.text ext.timeResult)
  else if hasPre logTok ev.text then handleLog db ev.author ev.text ext.nowTs ext.dbOk
  else if hasPre recallTok ev.text then (db, handleRecall db ev.text ext.dbOk)
  else (db, [])

/-- The classification of §4.1: the same first-matching-prefix rule as the
`elif` chain of `on_message`, as a pure function into a closed variant type. -/
inductive Cmd where
  | ping
  | scrape
  | time
  | log
  | recall
  | noMatch
deriving Repr, DecidableEq

/-- `classify(text)`: first matching prefix among `!ping`, `!scrape`, `!time`,
`!log`, `!recall`, in the order `on_message` checks them; otherwise no match. -/
def classify (text : List Char) : Cmd :=
  if hasPre pingTok text then Cmd.ping
  else if hasPre scrapeTok text then Cmd.scrape
  else if hasPre timeTok text then Cmd.time
  else if hasPre logTok text then Cmd.log
  else if hasPre recallTok text then Cmd.recall
  else Cmd.noMatch

/-- A sequence of `append` calls: each event inserts its (timestamp, user,
message) row via `handle_log_command`'s `INSERT`. -/
def appendAll (db : Chronicle) (xs : List EntryData) : Chronicle :=
  xs.foldl (fun d x => insertLog d x.1 x.2.1 x.2.2) db

/-- The Chronicle reached by appending `xs` to the initially empty table. -/
def chronicleOf (xs : List EntryData) : Chronicle := appendAll [] xs

/-- The row holding data `x` at zero-based position `i`: its id is `i + 1`. -/
def entryAt (i : Nat) (x : EntryData) : LogEntry := ⟨i + 1, x.1, x.2.1, x.2.2⟩

/-- The rows for the data list `xs` when `k` rows precede them. -/
def buildFrom (k : Nat) : List EntryData → Chronicle
  | [] => []
  | x :: xs => entryAt k x :: buildFrom (k + 1) xs

/-! ### Basic lemmas about ids and the shape of reachable Chronicles -/

theorem foldr_max_factor (l : List Nat) (a : Nat) :
    l.foldr max a = max (l.foldr max 0) a := by
  induction l with
  | nil => simp
  | cons x l ih => simp only [List.foldr_cons, ih]; omega

theorem foldr_max_range (k : Nat) : (List.range' 1 k).foldr max 0 = k := by
  induction k with
  | zero => rfl
  | succ k ih =>
    rw [List.range'_concat, List.foldr_append, List.foldr_cons, List.foldr_nil,
      foldr_max_factor, ih]
    omega

theorem nextId_of_range (db : Chronicle)
    (h : db.map LogEntry.id = List.range' 1 db.length) :
    nextId db = db.length + 1 := by
  unfold nextId
  rw [h, foldr_max_range]

theorem appendAll_eq_buildFrom :
    ∀ (xs : List EntryData) (db : Chronicle),
      db.map LogEntry.id = List.range' 1 db.length →
      appendAll db xs = db ++ buildFrom db.length xs := by
  intro xs
  induction xs with
  | nil => intro db _; simp [appendAll, buildFrom]
  | cons x xs ih =>
    intro db h
    have hins : insertLog db x.1 x.2.1 x.2.2 = db ++ [entryAt db.length x] := by
      unfold insertLog entryAt
      rw [nextId_of_range db h]
    have hinv : (db ++ [entryAt db.length x]).map LogEntry.id
        = List.range' 1 (db ++ [entryAt db.length x]).length := by
      rw [List.map_append, h, List.length_append]
      simp [entryAt, List.range'_concat]
      omega
    have hstep : appendAll db (x :: xs) = appendAll (db ++ [entryAt db.length x]) xs := by
      unfold appendAll
      rw [List.foldl_cons, hins]
    rw [hstep, ih _ hinv, List.length_append, List.append_assoc]
    simp [buildFrom]

theorem chronicleOf_eq_buildFrom (xs : List EntryData) :
    chronicleOf xs = buildFrom 0 xs := by
  have h := appendAll_eq_buildFrom xs [] (by simp)
  simpa [chronicleOf] using h

theorem ids_buildFrom : ∀ (xs : List EntryData) (k : Nat),
    (buildFrom k xs).map LogEntry.id = List.range' (k + 1) xs.length := by
  intro xs
  induction xs with
  | nil => intro k; rfl
  | cons x xs ih =>
    intro k
    simp only [buildFrom, List.map_cons, List.length_cons, List.range'_succ, ih]
    rfl

theorem length_buildFrom : ∀ (xs : List EntryData) (k : Nat),
    (buildFrom k xs).length = xs.length := by
  intro xs
  induction xs with
  | nil => intro k; rfl
  | cons x xs ih => intro k; simp [buildFrom, ih]

theorem buildFrom_append : ∀ (xs ys : List EntryData) (k : Nat),
    buildFrom k (xs ++ ys) = buildFrom k xs ++ buildFrom (k + xs.length) ys := by
  intro xs ys
  induction xs with
  | nil => intro k; simp [buildFrom]
  | cons x xs ih =>
    intro k
    have h := ih (k + 1)
    have harith : k + 1 + xs.length = k + (xs.length + 1) := by omega
    rw [harith] at h
    show entryAt k x :: buildFrom (k + 1) (xs ++ ys)
        = (entryAt k x :: buildFrom (k + 1) xs) ++ buildFrom (k + (xs.length + 1)) ys
    rw [h]
    rfl

theorem pairwise_lt_range : ∀ (n s : Nat), List.Pairwise (· < ·) (List.range' s n) := by
  intro n
  induction n with
  | zero => intro s; exact List.Pairwise.nil
  | succ n ih =>
    intro s
    rw [List.range'_succ]
    refine List.Pairwise.cons ?_ (ih (s + 1))
    intro x hx
    have hmem := List.mem_range'_1.1 hx
    omega

theorem ids_chronicleOf (xs : List EntryData) :
    (chronicleOf xs).map LogEntry.id = List.range' 1 xs.length := by
  rw [chronicleOf_eq_buildFrom, ids_buildFrom]

theorem length_chronicleOf (xs : List EntryData) :
    (chronicleOf xs).length = xs.length := by
  rw [chronicleOf_eq_buildFrom, length_buildFrom]

theorem pairwise_lt_ids_chronicleOf (xs : List EntryData) :
    List.Pairwise (fun a b : LogEntry => a.id < b.id) (chronicleOf xs) := by
  have h := pairwise_lt_range xs.length 1
  rw [← ids_chronicleOf xs] at h
  exact List.pairwise_map.1 h

/-! ### The descending-id sort -/

instance : IsTotal LogEntry descById := ⟨fun a b => Nat.le_total b.id a.id⟩

instance : IsTrans LogEntry descById := ⟨fun _ _ _ hab hbc => Nat.le_trans hbc hab⟩

theorem sortDescById_perm (rows : Chronicle) : List.Perm (sortDescById rows) rows :=
  List.perm_insertionSort descById rows

theorem sortDescById_sorted (rows : Chronicle) :
    List.Pairwise descById (sortDescById rows) :=
  List.sorted_insertionSort descById rows

/-- On a table whose insertion order `l` has strictly increasing ids, the
`ORDER BY id DESC` read of any storage order is exactly `l` reversed. -/
theorem sortDescById_eq_reverse {l rows : Chronicle}
    (hp : List.Perm rows l)
    (hl : List.Pairwise (fun a b : LogEntry => a.id < b.id) l) :
    sortDescById rows = l.reverse := by
  haveI : IsAntisymm LogEntry (fun a b : LogEntry => b.id < a.id) :=
    ⟨fun a b h1 h2 => absurd (Nat.lt_trans h1 h2) (Nat.lt_irrefl _)⟩
  have hperm : List.Perm (sortDescById rows) l.reverse :=
    ((sortDescById_perm rows).trans hp).trans (List.reverse_perm l).symm
  have hne : List.Pairwise (fun a b : LogEntry => a.id ≠ b.id) (sortDescById rows) := by
    have hnel : List.Pairwise (fun a b : LogEntry => a.id ≠ b.id) l :=
      hl.imp (fun hab => Nat.ne_of_lt hab)
    exact (List.Perm.pairwise_iff (fun hxy => Ne.symm hxy)
      ((sortDescById_perm rows).trans hp)).2 hnel
  have hs₁ : List.Sorted (fun a b : LogEntry => b.id < a.id) (sortDescById rows) :=
    ((sortDescById_sorted rows).and hne).imp
      (fun hab => Nat.lt_of_le_of_ne hab.1 (Ne.symm hab.2))
  have hs₂ : List.Sorted (fun a b : LogEntry => b.id < a.id) l.reverse :=
    List.pairwise_reverse.2 hl
  exact List.eq_of_perm_of_sorted hperm hs₁ hs₂

/-! ### Dispatcher structure -/

/-- For an event not from the bot itself, `on_message` is exactly a dispatch
on `classify`: the unique matching handler runs, and no handler runs on no
match. -/
theorem onMessage_dispatch (selfUser : String) (ext : Ext) (db : Chronicle) (ev : Event)
    (h : ev.author ≠ selfUser) :
    onMessage selfUser ext db ev =
      match classify ev.text with
      | Cmd.ping => (db, [Response.pong])
      | Cmd.scrape => (db, handleScrape ev.text ext.scrapeResult)
      | Cmd.time => (db, handleTime ev.text ext.timeResult)
      | Cmd.log => handleLog db ev.author ev.text ext.nowTs ext.dbOk
      | Cmd.recall => (db, handleRecall db ev.text ext.dbOk)
      | Cmd.noMatch => (db, []) := by
  unfold onMessage classify
  rw [if_neg h]
  split_ifs <;> rfl

/-- The number of responses each classification produces: one per event, but
none on no match and two (progress message, then result) for a scrape or time
request that has an argument. -/
def respCount : Cmd → List Char → Nat
  | Cmd.ping, _ => 1
  | Cmd.scrape, t => if 2 ≤ (tokens t).length then 2 else 1
  | Cmd.time, t => if 2 ≤ (tokens t).length then 2 else 1
  | Cmd.log, _ => 1
  | Cmd.recall, _ => 1
  | Cmd.noMatch, _ => 0

theorem length_handleScrape (t : List Char) (r : Except String String) :
    (handleScrape t r).length = if 2 ≤ (tokens t).length then 2 else 1 := by
  unfold handleScrape
  rcases htk : tokens t with _ | ⟨a, _ | ⟨b, rest⟩⟩ <;> rcases r with e | v <;>
    simp [htk]

theorem length_handleTime (t : List Char) (r : Except String (String × String × String)) :
    (handleTime t r).length = if 2 ≤ (tokens t).length then 2 else 1 := by
  unfold handleTime
  rcases htk : tokens t with _ | ⟨a, _ | ⟨b, rest⟩⟩ <;> rcases r with e | v <;>
    simp [htk]

theorem length_handleLog (db : Chronicle) (a : String) (t : List Char) (ts : String)
    (ok : Bool) : (handleLog db a t ts ok).2.length = 1 := by
  by_cases h : (stripChars (t.drop 5)).isEmpty <;> cases ok <;> simp [handleLog, h]

theorem length_handleRecall (db : Chronicle) (t : List Char) (ok : Bool) :
    (handleRecall db t ok).length = 1 := by
  unfold handleRecall
  rcases hl : recallLimit? t with _ | l
  · simp
  · cases ok
    · simp
    · by_cases h : (selectDesc db l).isEmpty <;> simp [h]

/-! ### The claims -/

/-- C1: for every `n` and every Chronicle reached by appending the `m` entries
`xs` — whatever storage order `rows` the table holds them in — the recall read
returns at most `n` entries, namely the `n` most recently appended ones (all of
them when `m < n`), in ascending insertion order: it equals the insertion-order
list with everything but its last `n` entries dropped, and it has `min n m`
entries. -/
theorem recall_returns_lastN (xs : List EntryData) (rows : Chronicle) (n : Nat)
    (hstore : List.Perm rows (chronicleOf xs)) :
    recentN rows n = (chronicleOf xs).drop (xs.length - n) ∧
    (recentN rows n).length = min n xs.length := by
  have hsort : sortDescById rows = (chronicleOf xs).reverse :=
    sortDescById_eq_reverse hstore (pairwise_lt_ids_chronicleOf xs)
  constructor
  · rw [recentN, hsort, List.take_reverse, List.reverse_reverse, length_chronicleOf]
  · simp [recentN, hsort, List.length_take, length_chronicleOf]

/-- Three appended entries, stored out of insertion order. -/
def rowsW : Chronicle :=
  [⟨2, ("t2"), ("bob"), ("m2")⟩, ⟨3, ("t3"), ("carol"), ("m3")⟩,
   ⟨1, ("t1"), ("alice"), ("m1")⟩]

/-- The data of the three entries of `rowsW`, in insertion order. -/
def xsW : List EntryData :=
  [(("t1"), ("alice"), ("m1")), (("t2"), ("bob"), ("m2")), (("t3"), ("carol"), ("m3"))]

theorem recall_returns_lastN_witness :
    recentN rowsW 2 = (chronicleOf xsW).drop (xsW.length - 2) ∧
    (recentN rowsW 2).length = min 2 xsW.length :=
  recall_returns_lastN xsW rowsW 2 (by decide)

/-- C2: appending the entries `ys` (N of them) to the reachable Chronicle
holding `xs` (k = `xs.length` entries) assigns to the new entries exactly the
ids `k+1, …, k+N` in order — no duplicates, no gaps — and the ids of the whole
Chronicle are `1, …, k+N`, strictly increasing in insertion order. -/
theorem append_ids_contiguous (xs ys : List EntryData) :
    (appendAll (chronicleOf xs) ys).map LogEntry.id
        = List.range' 1 (xs.length + ys.length) ∧
    ((appendAll (chronicleOf xs) ys).drop xs.length).map LogEntry.id
        = List.range' (xs.length + 1) ys.length ∧
    List.Pairwise (· < ·) ((appendAll (chronicleOf xs) ys).map LogEntry.id) := by
  have htot : appendAll (chronicleOf xs) ys = chronicleOf (xs ++ ys) := by
    unfold chronicleOf appendAll
    rw [List.foldl_append]
  have hids := ids_chronicleOf (xs ++ ys)
  rw [List.length_append] at hids
  refine ⟨?_, ?_, ?_⟩
  · rw [htot]
    exact hids
  · rw [htot, chronicleOf_eq_buildFrom, buildFrom_append,
      List.drop_left' (length_buildFrom xs 0), ids_buildFrom]
    simp
  · rw [htot, ids_chronicleOf]
    exact pairwise_lt_range _ _

/-- C3: `handle_log_command` never silently drops a requested append: it always
sends a response, it sends the confirmation exactly when the new row (with the
given timestamp, author and message) has been committed at the end of the
table, and on any other response the table is exactly as before. -/
theorem log_append_atomic (db : Chronicle) (author : String) (text : List Char)
    (ts : String) (ok : Bool) :
    ((handleLog db author text ts ok).2 = [Response.logOk] →
      (handleLog db author text ts ok).1
        = db ++ [⟨nextId db, ts, author, String.mk (stripChars (text.drop 5))⟩]) ∧
    ((handleLog db author text ts ok).2 ≠ [Response.logOk] →
      (handleLog db author text ts ok).1 = db) ∧
    (handleLog db author text ts ok).2 ≠ [] := by
  by_cases h : (stripChars (text.drop 5)).isEmpty <;> cases ok <;>
    simp [handleLog, insertLog, h]

theorem log_append_atomic_witness :
    (handleLog [] ("alice") (("!log hi").data) ("T0") true).1
      = [] ++ [⟨nextId [], ("T0"), ("alice"),
          String.mk (stripChars ((("!log hi").data).drop 5))⟩] :=
  (log_append_atomic [] ("alice") (("!log hi").data) ("T0") true).1 (by decide)

/-- C4: an inbound event whose author is the bot's own identity produces no
outbound response and leaves the Chronicle unchanged, regardless of its text. -/
theorem self_event_ignored (selfUser : String) (ext : Ext) (db : Chronicle) (ev : Event)
    (h : ev.author = selfUser) : onMessage selfUser ext db ev = (db, []) := by
  simp [onMessage, h]

/-- A fixed collaborator environment: both external calls succeed and the
sqlite layer is healthy. -/
def extW : Ext :=
  ⟨Except.ok ("Title"), Except.ok (("tz"), ("dt"), ("ts")), ("2024-01-01T00:00:00"), true⟩

theorem self_event_ignored_witness :
    onMessage ("EchoBot") extW [] ⟨("EchoBot"), ("!log hi").data⟩ = ([], []) :=
  self_event_ignored ("EchoBot") extW [] ⟨("EchoBot"), ("!log hi").data⟩ rfl

/-- C5 counterexample: a scrape event from another user is classified as a
single command, yet the handler sends two outbound responses (the progress
message, then the report), so "exactly one outbound response per event" fails
as stated. -/
theorem scrape_two_responses :
    classify (("!scrape u").data) = Cmd.scrape ∧
    (onMessage ("EchoBot") extW [] ⟨("alice"), ("!scrape u").data⟩).2.length = 2 := by
  decide

/-- C5 (amended): for every event not from the bot itself, `on_message` invokes
exactly the one handler matching the classification, and the event gets exactly
one outbound response — except that a `noMatch` event gets none at all, and a
scrape or time event that carries an argument gets two (a progress message,
then the result). -/
theorem dispatch_unique_handler_counts (selfUser : String) (ext : Ext) (db : Chronicle)
    (ev : Event) (h : ev.author ≠ selfUser) :
    (onMessage selfUser ext db ev =
      match classify ev.text with
      | Cmd.ping => (db, [Response.pong])
      | Cmd.scrape => (db, handleScrape ev.text ext.scrapeResult)
      | Cmd.time => (db, handleTime ev.text ext.timeResult)
      | Cmd.log => handleLog db ev.author ev.text ext.nowTs ext.dbOk
      | Cmd.recall => (db, handleRecall db ev.text ext.dbOk)
      | Cmd.noMatch => (db, [])) ∧
    (onMessage selfUser ext db ev).2.length = respCount (classify ev.text) ev.text := by
  refine ⟨onMessage_dispatch selfUser ext db ev h, ?_⟩
  rw [onMessage_dispatch selfUser ext db ev h]
  cases hc : classify ev.text <;>
    simp [respCount, length_handleScrape, length_handleTime, length_handleLog,
      length_handleRecall]

theorem dispatch_unique_handler_counts_witness :
    (onMessage ("EchoBot") extW [] ⟨("alice"), ("!ping").data⟩).2.length
      = respCount (classify (("!ping").data)) (("!ping").data) :=
  (dispatch_unique_handler_counts ("EchoBot") extW [] ⟨("alice"), ("!ping").data⟩
    (by decide)).2

/-- C6 counterexample: the recall event `!recall 0` is classified as a recall
and the handler passes limit 0 into the store read — not a value in [1, 20]. -/
theorem recall_limit_zero :
    classify (("!recall 0").data) = Cmd.recall ∧
    recallLimit? (("!recall 0").data) = some 0 := by
  decide

/-- C6 (amended): the caller clamps the recall limit only from above: whenever
the handler passes a limit into the store read, that limit is at most 20 (and
a natural number, so at least 0 — but not at least 1: `!recall 0` passes 0). -/
theorem recall_limit_at_most_twenty (text : List Char) :
    ∀ l, recallLimit? text = some l → l ≤ 20 := by
  intro l hl
  unfold recallLimit? at hl
  rcases htk : tokens text with _ | ⟨a, _ | ⟨b, rest⟩⟩ <;> simp only [htk] at hl
  · simp at hl
    omega
  · simp at hl
    omega
  · split_ifs at hl with hd
    · rcases Option.map_eq_some'.1 hl with ⟨v, hv, hmin⟩
      omega
    · simp at hl
      omega

theorem recall_limit_at_most_twenty_witness : (0 : Nat) ≤ 20 :=
  recall_limit_at_most_twenty (("!recall 0").data) 0 (by decide)

/-- C7 counterexample: for the recall event `!recall ²` the second token is
composed only of digits in the sense of `isdigit()` (`'²'.isdigit()` is true),
yet `int('²')` raises `ValueError`, so the handler produces the error response
and no limit is ever used — refuting both branches of the claim (neither
"default 5 and no error" nor "limit `min(parsed value, 20)`" happens). The
last conjunct shows the claim's ASCII reading of "digits" also fails:
`!recall ٧` (Arabic-Indic seven) uses limit 7, not the default 5. -/
theorem recall_superscript_error :
    classify (("!recall ²").data) = Cmd.recall ∧
    isDigitsPy (("²").data) = true ∧
    recallLimit? (("!recall ²").data) = none ∧
    handleRecall [] (("!recall ²").data) true = [Response.recallFail] ∧
    recallLimit? (("!recall ٧").data) = some 7 := by
  decide

/-- C7 (amended): for every recall event, an absent second whitespace token,
or one that is not `isdigit()`-true, gives the default limit 5 and no error;
an `isdigit()`-true second token gives limit `min(int(token), 20)` when every
character is a decimal digit, and the error response (no read) when `int`
raises on it (digit-type characters such as `'²'`); whenever a limit is
obtained, the healthy-store handler sends a normal recall response, never the
error one. -/
theorem recall_limit_default_or_min (text : List Char) :
    ((tokens text)[1]? = none → recallLimit? text = some 5) ∧
    (∀ t, (tokens text)[1]? = some t → isDigitsPy t = false →
      recallLimit? text = some 5) ∧
    (∀ t, (tokens text)[1]? = some t → isDigitsPy t = true →
      recallLimit? text = (intOfDecimal t).map (fun v => min v 20)) ∧
    (∀ db l, recallLimit? text = some l →
      handleRecall db text true = [Response.chronicleEmpty] ∨
      ∃ rows, handleRecall db text true = [Response.recallEmbed rows]) := by
  have hresp : ∀ db l, recallLimit? text = some l →
      handleRecall db text true = [Response.chronicleEmpty] ∨
      ∃ rows, handleRecall db text true = [Response.recallEmbed rows] := by
    intro db l hl
    unfold handleRecall
    rw [hl]
    by_cases h : (selectDesc db l).isEmpty
    · left
      simp [h]
    · right
      exact ⟨(selectDesc db l).reverse, by simp [h]⟩
  refine ⟨?_, ?_, ?_, hresp⟩
  · intro hnone
    rcases htk : tokens text with _ | ⟨a, _ | ⟨b, rest⟩⟩
    · simp [recallLimit?, htk]
    · simp [recallLimit?, htk]
    · rw [htk] at hnone
      simp at hnone
  · intro t ht hd
    rcases htk : tokens text with _ | ⟨a, _ | ⟨b, rest⟩⟩ <;> rw [htk] at ht
    · simp at ht
    · simp at ht
    · simp at ht
      subst ht
      simp [recallLimit?, htk, hd]
  · intro t ht hd
    rcases htk : tokens text with _ | ⟨a, _ | ⟨b, rest⟩⟩ <;> rw [htk] at ht
    · simp at ht
    · simp at ht
    · simp at ht
      subst ht
      simp [recallLimit?, htk, hd]

theorem recall_limit_default_or_min_witness :
    recallLimit? (("!recall abc").data) = some 5 :=
  (recall_limit_default_or_min (("!recall abc").data)).2.1 (("abc").data)
    (by decide) (by decide)

/-- C8: a log event from another user whose content (the raw text after the
first five characters) is empty after trimming gets the usage-error response
and no store interaction: the Chronicle is unchanged and nothing is appended. -/
theorem log_empty_no_store (selfUser : String) (ext : Ext) (db : Chronicle) (ev : Event)
    (hauthor : ev.author ≠ selfUser) (hcls : classify ev.text = Cmd.log)
    (hempty : stripChars (ev.text.drop 5) = []) :
    onMessage selfUser ext db ev = (db, [Response.logUsage]) := by
  rw [onMessage_dispatch selfUser ext db ev hauthor]
  simp [hcls, handleLog, hempty]

theorem log_empty_no_store_witness :
    onMessage ("EchoBot") extW [] ⟨("alice"), ("!log   ").data⟩
      = ([], [Response.logUsage]) :=
  log_empty_no_store ("EchoBot") extW [] ⟨("alice"), ("!log   ").data⟩
    (by decide) (by decide) (by decide)

/-- Every row of `buildFrom k xs` has the data of `xs` at its id's position. -/
theorem mem_buildFrom : ∀ (xs : List EntryData) (k : Nat) (e : LogEntry),
    e ∈ buildFrom k xs →
    k < e.id ∧ xs[e.id - 1 - k]? = some (e.timestamp, e.user, e.message) := by
  intro xs
  induction xs with
  | nil => intro k e he; cases he
  | cons x xs ih =>
    intro k e he
    rcases List.mem_cons.1 he with heq | hmem
    · subst heq
      refine ⟨Nat.lt_succ_self k, ?_⟩
      have h0 : (k + 1) - 1 - k = 0 := by omega
      show (x :: xs)[(entryAt k x).id - 1 - k]? = _
      simp [entryAt, h0]
    · obtain ⟨hk, hget⟩ := ih (k + 1) e hmem
      refine ⟨by omega, ?_⟩
      have harith : e.id - 1 - k = (e.id - 1 - (k + 1)) + 1 := by omega
      rw [harith, List.getElem?_cons_succ]
      exact hget

/-- C9: round trip — whenever an entry of the Chronicle reached by appending
`xs` is included in a `recentN` result, its retrieved timestamp, author and
message are exactly the values appended at its position, unaltered by the
store. -/
theorem roundtrip_recentN (xs : List EntryData) (n : Nat) (e : LogEntry)
    (h : e ∈ recentN (chronicleOf xs) n) :
    xs[e.id - 1]? = some (e.timestamp, e.user, e.message) := by
  simp only [recentN] at h
  have h2 := List.mem_reverse.1 h
  have h3 := List.take_subset n _ h2
  have h1 : e ∈ chronicleOf xs :=
    ((sortDescById_perm (chronicleOf xs)).mem_iff).1 h3
  rw [chronicleOf_eq_buildFrom] at h1
  obtain ⟨hk, hget⟩ := mem_buildFrom xs 0 e h1
  simpa using hget

theorem roundtrip_recentN_witness :
    xsW[(⟨2, ("t2"), ("bob"), ("m2")⟩ : LogEntry).id - 1]?
      = some ((⟨2, ("t2"), ("bob"), ("m2")⟩ : LogEntry).timestamp,
          (⟨2, ("t2"), ("bob"), ("m2")⟩ : LogEntry).user,
          (⟨2, ("t2"), ("bob"), ("m2")⟩ : LogEntry).message) :=
  roundtrip_recentN xsW 5 ⟨2, ("t2"), ("bob"), ("m2")⟩ (by decide)

/-- C10: an event `!recall 0` from another user, with the store healthy, reads
zero entries and gets the "The Chronicle is empty." response even when the
Chronicle has entries, and performs no store mutation. -/
theorem recall_zero_empty_response (selfUser : String) (ext : Ext) (db : Chronicle)
    (ev : Event) (hauthor : ev.author ≠ selfUser)
    (htext : ev.text = ("!recall 0").data) (hdb : ext.dbOk = true) :
    onMessage selfUser ext db ev = (db, [Response.chronicleEmpty]) := by
  rw [onMessage_dispatch selfUser ext db ev hauthor, htext]
  have hcls : classify (("!recall 0").data) = Cmd.recall := by decide
  have hlim : recallLimit? (("!recall 0").data) = some 0 := by decide
  simp [hcls, handleRecall, hdb, selectDesc, hlim]

theorem recall_zero_empty_response_witness :
    onMessage ("EchoBot") extW [⟨1, ("t1"), ("alice"), ("m1")⟩]
        ⟨("bob"), ("!recall 0").data⟩
      = ([⟨1, ("t1"), ("alice"), ("m1")⟩], [Response.chronicleEmpty]) :=
  recall_zero_empty_response ("EchoBot") extW [⟨1, ("t1"), ("alice"), ("m1")⟩]
    ⟨("bob"), ("!recall 0").data⟩ (by decide) rfl rfl

end Echo
